import Mathlib

/-!
Shallow embedding of `src/utils/model/train.py` (class `Trainer`): the
dataset partitioner (`read_data`), the two sequential sample cursors
(`next`, `valnext`, `reset`), model attachment (`set_model`) and the epoch
orchestration loop (`fit`, with its final `visualize_snn` call).

Conventions of the embedding:
* a numpy 2-D array (one sample) is a `List (List ℚ)`;
* Python floats are embedded as exact rationals `ℚ`; the float value `nan`
  (and the string sentinel used for `score` before the first window
  completes) is embedded as `none` in an `Option ℚ`;
* the process-global numpy random state consumed by the *unseeded*
  `np.random.choice` call is an explicit stream argument `rng : Nat → Nat`
  (`rng t` is the t-th draw it yields);
* raised Python exceptions become `Except TrainerError`;
* the external collaborators (sklearn shuffle and SVC, matplotlib) are
  modelled per the spec: the fixed-seed shuffle as a deterministic
  permutation driven by a seeded generator, the windowed SVC fit+score as
  an abstract pure function `svc` of the window, plotting as a no-op.
-/

/-- A single sample: a 2-D numeric array, row major. -/
abbrev Sample := List (List ℚ)

/-- Errors of the orchestrator, named after the taxonomy of the spec (§7).
`ShapeMismatchError` and `ModelNotSetError` are `ValueError`s in the
source, `ExhaustedCursorError` an `IndexError`; `AttributeError` embeds a
Python attribute lookup failing on an object that lacks the attribute. -/
inductive TrainerError where
  | ShapeMismatchError (msg : String)
  | ExhaustedCursorError (msg : String)
  | ModelNotSetError (msg : String)
  | AttributeError (msg : String)
deriving DecidableEq

/-- Message of the re-raised IndexError in `Trainer.next` (train.py:91). -/
def exhaustedTrainMsg : String :=
  "Trainer reached the end of the training data. To use further, call `trainer.reset()` to reset the index to 0."

/-- Message of the re-raised IndexError in `Trainer.valnext` (train.py:108). -/
def exhaustedValMsg : String :=
  "Trainer reached the end of the validation data. To use further, call `trainer.reset()` to reset the index to 0."

/-- Message of the ValueError raised by `set_model` (train.py:128); the
source appends the two formatted shapes, elided here. -/
def shapeMismatchMsg : String :=
  "The data in the trainer has a different shape than what this model was initialized for."

/-- Message of the ValueError in `fit` (train.py:137). -/
def modelNotSetMsg : String :=
  "Model is not set. Call `trainer.set_model()` with an appropriate model instance."

/-- Message of the AttributeError Python raises when `fit` evaluates
`self.model` on a trainer whose `__init__` never assigned that attribute
and `set_model` was never called. -/
def attributeErrMsg : String :=
  "Trainer object has no attribute model"

/-- Decides whether `pat` is a prefix of `s`, on character lists. -/
def startsWithChars : List Char → List Char → Bool
  | [], _ => true
  | _ :: _, [] => false
  | a :: as, b :: bs => a == b && startsWithChars as bs

/-- Decides whether `pat` occurs as a contiguous substring of `s`. -/
def charsHasSub (pat : List Char) : List Char → Bool
  | [] => pat.isEmpty
  | b :: rest => startsWithChars pat (b :: rest) || charsHasSub pat rest

/-- An error message instructs the caller to call `reset()` when the text
contains the call `reset()`. -/
def mentionsReset (s : String) : Bool := charsHasSub "reset()".data s.data

/-- An error message instructs the caller to call `set_model` when the
text contains `set_model`. -/
def mentionsSetModel (s : String) : Bool := charsHasSub "set_model".data s.data

/-- Modelled from the spec: draw `k` indices without replacement from
`pool`, driven by the random stream `rng` starting at position `t`.  This
embeds the external `np.random.choice(n, k, replace=False)` call of
train.py:71-72, whose randomness comes from the process-global numpy
random state (the source passes no seed); `rng` is that global state. -/
def drawFrom (rng : Nat → Nat) : Nat → List Nat → Nat → List Nat
  | _t, _pool, 0 => []
  | t, pool, k+1 =>
    if pool.length = 0 then []
    else
      pool.getD (rng t % pool.length) 0 ::
        drawFrom rng (t+1) (pool.eraseIdx (rng t % pool.length)) k

/-- Modelled from the spec: one step of a linear congruential generator,
standing in for the seeded pseudo-random source of the external
fixed-seed shuffle (`sklearn.utils.shuffle(..., random_state=0)`,
train.py:45).  Any deterministic generator is faithful to the spec, which
only promises a fixed-seed deterministic shuffle. -/
def lcg (s : Nat) : Nat := (1103515245 * s + 12345) % 2147483648

/-- The stream of draws of the seeded generator: `lcgStream seed t` is the
(t+1)-th state reached from `seed`. -/
def lcgStream (seed : Nat) : Nat → Nat
  | 0 => lcg seed
  | t+1 => lcg (lcgStream seed t)

/-- Modelled from the spec: the permutation applied by the fixed-seed
deterministic shuffle, as a list of positions (a Fisher-Yates style
selection shuffle driven by the seeded generator). -/
def shuffledIndices (seed n : Nat) : List Nat :=
  drawFrom (lcgStream seed) 0 (List.range n) n

/-- Python `int()` applied to `datasize * validation_split`
(train.py:66); on the nonnegative values that reach it, truncation and
floor agree, so the embedding uses the floor of the exact rational. -/
def computeValSize (datasize : Nat) (valsplit : ℚ) : Nat :=
  (⌊(datasize : ℚ) * valsplit⌋).toNat

/-- Result of `Trainer.read_data` (train.py:38-79): the shuffled,
transposed dataset, its derived sizes, and the two partitions with their
index sets into the shuffled data. -/
structure ReadResult where
  shuffledData : List Sample
  shuffledLabels : List Int
  datashape : Nat × Nat
  valsize : Nat
  trainsize : Nat
  val_indices : List Nat
  train_indices : List Nat
  valdata : List Sample
  traindata : List Sample
  vallabels : List Int
  trainlabels : List Int
deriving DecidableEq

/-- Embedding of `Trainer.read_data` (train.py:38-79).  `data`/`labels`
are the arrays the external loaders return; `valsplit` is the
`validation_split` constructor argument; `rng` is the process-global
numpy random state consumed by the unseeded `np.random.choice`.  The
length assertion of train.py:47 is modelled as a guard (the external
joint shuffle already requires equally long inputs). -/
def read_data (data : List Sample) (labels : List Int) (valsplit : ℚ)
    (rng : Nat → Nat) : Except TrainerError ReadResult :=
  if data.length = labels.length then
    -- data, labels = shuffle(data, labels, random_state=0)
    let perm := shuffledIndices 0 data.length
    let sdRaw := perm.map (fun i => data.getD i [])
    let sl := perm.map (fun i => labels.getD i 0)
    -- transpose every sample back (train.py:53-56)
    let sd := sdRaw.map List.transpose
    -- datashape from the transposed array (train.py:59)
    let datashape := ((sd.getD 0 []).length, ((sd.getD 0 []).getD 0 []).length)
    let datasize := data.length
    let valsize := computeValSize datasize valsplit
    let trainsize := datasize - valsize
    -- val_indices = np.random.choice(datasize, valsize, replace=False)
    let val_indices := drawFrom rng 0 (List.range datasize) valsize
    -- train_indices = np.delete(np.arange(datasize), val_indices)
    let train_indices := (List.range datasize).filter (fun i => decide (i ∉ val_indices))
    .ok {
      shuffledData := sd, shuffledLabels := sl, datashape := datashape,
      valsize := valsize, trainsize := trainsize,
      val_indices := val_indices, train_indices := train_indices,
      valdata := val_indices.map (fun i => sd.getD i []),
      traindata := train_indices.map (fun i => sd.getD i []),
      vallabels := val_indices.map (fun i => sl.getD i 0),
      trainlabels := train_indices.map (fun i => sl.getD i 0) }
  else
    .error (.ShapeMismatchError "Data and labels do not fit in shape")

/-- The model contract of spec §6: declared input shape
(`model.input_layer.input_shape`), output shape
(`model.pooling_layer.output_shape`), the learning-enabled flag
(`model.conv_layer.is_training`, toggled by `freeze`/`unfreeze`), and the
forward pass `model(sample)`.  SNN internals are out of scope, so the
forward pass is an opaque function of the sample. -/
structure Model where
  input_shape : Nat × Nat
  output_shape : Nat × Nat
  is_training : Bool
  forward : Sample → Sample

/-- Embedding of `model.freeze()`: disable learning. -/
def Model.freeze (m : Model) : Model := { m with is_training := false }

/-- Embedding of `model.unfreeze()`: enable learning. -/
def Model.unfreeze (m : Model) : Model := { m with is_training := true }

/-- Python object truthiness of a bound model instance: a plain object
with no `__bool__`/`__len__` is always truthy, so `not self.model` is
`False` whenever the attribute exists. -/
def modelTruthy (_m : Model) : Bool := true

/-- The state of a `Trainer` instance after `__init__`: the two
partitions with labels, the two cursor indices, the stored dataset sizes
and shape, and the (possibly absent) attached model.  `model = none`
embeds the attribute not existing on the object (no `self.model = ...`
ever executed). -/
structure Trainer where
  traindata : List Sample
  valdata : List Sample
  trainlabels : List Int
  vallabels : List Int
  trainsize : Nat
  valsize : Nat
  trainindex : Nat
  valindex : Nat
  datashape : Nat × Nat
  model : Option Model

/-- Embedding of `Trainer.next` (train.py:81-96): return the training
sample at the current index and advance the index; past the end, raise
and leave the state unchanged (the index increment is only reached on
success). -/
def Trainer.next (t : Trainer) : Except TrainerError Sample × Trainer :=
  match t.traindata[t.trainindex]? with
  | some image => (.ok image, { t with trainindex := t.trainindex + 1 })
  | none => (.error (.ExhaustedCursorError exhaustedTrainMsg), t)

/-- Embedding of `Trainer.valnext` (train.py:98-113). -/
def Trainer.valnext (t : Trainer) : Except TrainerError Sample × Trainer :=
  match t.valdata[t.valindex]? with
  | some image => (.ok image, { t with valindex := t.valindex + 1 })
  | none => (.error (.ExhaustedCursorError exhaustedValMsg), t)

/-- Embedding of `Trainer.reset` (train.py:115-121): both indices back to
0 (the progress notifiers it also resets are external console output). -/
def Trainer.reset (t : Trainer) : Trainer :=
  { t with trainindex := 0, valindex := 0 }

/-- Embedding of `Trainer.set_model` (train.py:123-131). -/
def Trainer.set_model (t : Trainer) (m : Model) : Except TrainerError Trainer :=
  if t.datashape ≠ m.input_shape then
    .error (.ShapeMismatchError shapeMismatchMsg)
  else
    .ok { t with model := some m }

/-- Iterated calls of `next`: stop at the first error. -/
def iterNext : Trainer → Nat → Except TrainerError Trainer
  | t, 0 => .ok t
  | t, k+1 =>
    match t.next with
    | (.ok _, t') => iterNext t' k
    | (.error e, _) => .error e

/-- Flattening of one model output for the classifier call
(`.reshape(test_freq, 9*50)` flattens each output row of the window,
train.py:192). -/
def flattenSample (s : Sample) : List ℚ := s.flatten

/-- Embedding of `np.mean` on the collected score list: the mean of an
empty list is the float `nan`, embedded as `none`. -/
def npMean (xs : List ℚ) : Option ℚ :=
  if xs.length = 0 then none else some (xs.sum / (xs.length : ℚ))

/-- Running state of one training or validation sweep of an epoch: the
potentials written so far for this epoch (`train_potentials[epoch, :i]`),
the current `score` variable (`none` embeds its initial string sentinel),
the accumulated `train_scores`/`val_scores` list, and the sequence of
per-step `Accuracy` values handed to the progress notifier. -/
structure SweepState where
  potentials : List Sample
  score : Option ℚ
  scores : List ℚ
  progLog : List (Option ℚ)
deriving DecidableEq

/-- The sweep state at the start of a sweep (`score = 'Nan'`,
`train_scores = []`, train.py:177-178 and 204-205). -/
def initSweep : SweepState := { potentials := [], score := none, scores := [], progLog := [] }

/-- One iteration of the per-sample loop of `fit` (train.py:179-199 and,
with identical body, 207-220): store the forward-pass output into the
potentials row, and every `freq` steps fit and score a fresh classifier
on the just-completed window of outputs and labels; finally report the
current score to the progress notifier.  `svc` embeds
`svm.SVC().fit(X, y).score(X, y)` as a pure function of the window, so no
classifier state can persist between windows.  (The feature-map snapshot
taken every `visualize_freq` cumulative samples, train.py:182-186, only
feeds the excluded visualization sink and is not modelled.) -/
def sweepStep (svc : List (List ℚ) → List Int → ℚ) (labels : List Int)
    (freq : Nat) (i : Nat) (out : Sample) (st : SweepState) : SweepState :=
  let pots := st.potentials ++ [out]
  if (i+1) % freq = 0 then
    let X := ((pots.drop (i+1-freq)).take freq).map flattenSample
    let y := (labels.drop (i+1-freq)).take freq
    let s := svc X y
    { potentials := pots, score := some s, scores := st.scores ++ [s],
      progLog := st.progLog ++ [some s] }
  else
    { potentials := pots, score := st.score, scores := st.scores,
      progLog := st.progLog ++ [st.score] }

/-- The training sweep `for i in range(self.trainsize)` of one epoch
(train.py:179-199): `rem` steps remain, `i` is the current step index;
each step draws the next sample through the training cursor and feeds its
forward-pass output to `sweepStep`.  A cursor failure propagates, as the
uncaught IndexError would. -/
def trainLoop (svc : List (List ℚ) → List Int → ℚ) (fwd : Sample → Sample)
    (labels : List Int) (freq : Nat) :
    Nat → Nat → Trainer → SweepState → Except TrainerError (Trainer × SweepState)
  | _i, 0, t, st => .ok (t, st)
  | i, rem+1, t, st =>
    match t.next with
    | (.ok image, t') =>
      trainLoop svc fwd labels freq (i+1) rem t' (sweepStep svc labels freq i (fwd image) st)
    | (.error e, _) => .error e

/-- The validation sweep `for i in range(self.valsize)` of one epoch
(train.py:207-220), identical to the training sweep but driven by the
validation cursor. -/
def valLoop (svc : List (List ℚ) → List Int → ℚ) (fwd : Sample → Sample)
    (labels : List Int) (freq : Nat) :
    Nat → Nat → Trainer → SweepState → Except TrainerError (Trainer × SweepState)
  | _i, 0, t, st => .ok (t, st)
  | i, rem+1, t, st =>
    match t.valnext with
    | (.ok image, t') =>
      valLoop svc fwd labels freq (i+1) rem t' (sweepStep svc labels freq i (fwd image) st)
    | (.error e, _) => .error e

/-- Everything one epoch of `fit` records: per-epoch potentials rows,
windowed scores, per-step progress updates, and the reported mean
accuracies (train.py:200 and 221). -/
structure EpochLog where
  trainPotentials : List Sample
  trainScores : List ℚ
  trainProg : List (Option ℚ)
  trainMean : Option ℚ
  valPotentials : List Sample
  valScores : List ℚ
  valProg : List (Option ℚ)
  valMean : Option ℚ
deriving DecidableEq

/-- One iteration of the epoch loop of `fit` (train.py:165-230): reset
the cursors, unfreeze and sweep the training partition, report its mean
accuracy, freeze and sweep the validation partition, report its mean
accuracy, and unfreeze again (train.py:222).  `test_freq = 100`
(train.py:173).  The elapsed-time report is purely observational and not
modelled. -/
def epochBody (svc : List (List ℚ) → List Int → ℚ) (m : Model) (t : Trainer) :
    Except TrainerError (Model × Trainer × EpochLog) :=
  let t0 := t.reset
  let m1 := m.unfreeze
  match trainLoop svc m1.forward t0.trainlabels 100 0 t0.trainsize t0 initSweep with
  | .error e => .error e
  | .ok (t1, stT) =>
    let m2 := m1.freeze
    match valLoop svc m2.forward t0.vallabels 100 0 t0.valsize t1 initSweep with
    | .error e => .error e
    | .ok (t2, stV) =>
      let m3 := m2.unfreeze
      .ok (m3, t2, {
        trainPotentials := stT.potentials, trainScores := stT.scores,
        trainProg := stT.progLog, trainMean := npMean stT.scores,
        valPotentials := stV.potentials, valScores := stV.scores,
        valProg := stV.progLog, valMean := npMean stV.scores })

/-- The epoch loop `for epoch in range(epochs)` of `fit`. -/
def runEpochs (svc : List (List ℚ) → List Int → ℚ) :
    Model → Trainer → Nat → Except TrainerError (Model × Trainer × List EpochLog)
  | m, t, 0 => .ok (m, t, [])
  | m, t, n+1 =>
    match epochBody svc m t with
    | .error e => .error e
    | .ok (m', t', log) =>
      match runEpochs svc m' t' n with
      | .error e => .error e
      | .ok (m'', t'', logs) => .ok (m'', t'', log :: logs)

/-- Model-state effect of `Trainer.visualize_snn` (train.py:239-275): it
freezes the model ("Make sure that we are not training", train.py:252-253)
and never unfreezes it; the plotting sweep only runs pure forward passes
into the excluded visualization sink. -/
def visualize_snn (m : Model) : Model := m.freeze

/-- Embedding of `Trainer.fit` (train.py:133-237).  Evaluating
`self.model` on a trainer that never attached a model raises an
AttributeError (the attribute does not exist), so the guard
`if not self.model` itself fails before its ValueError can be built; with
a model attached the guard is always passed (a model object is truthy).
Then: warn and auto-unfreeze a frozen model (train.py:143-145), run the
epoch loop, and finally run the visualizations (`visualize_featuremaps`
has no effect on the trainer or model; `visualize_snn` freezes the
model). -/
def fitModel (svc : List (List ℚ) → List Int → ℚ) (t : Trainer) (epochs : Nat) :
    Except TrainerError (Trainer × List EpochLog) :=
  match t.model with
  | none => .error (.AttributeError attributeErrMsg)
  | some m =>
    if modelTruthy m then
      let m0 := if m.is_training then m else m.unfreeze
      match runEpochs svc m0 t epochs with
      | .error e => .error e
      | .ok (m1, t1, logs) =>
        let m2 := visualize_snn m1
        .ok ({ t1 with model := some m2 }, logs)
    else .error (.ModelNotSetError modelNotSetMsg)

/-- Pure form of the per-sample sweep: `sweepStep` folded over the list of
forward-pass outputs, starting at step index `i`.  The cursor-driven
`trainLoop`/`valLoop` are proved equal to it below. -/
def sweepAux (svc : List (List ℚ) → List Int → ℚ) (labels : List Int)
    (freq : Nat) : Nat → List Sample → SweepState → SweepState
  | _i, [], st => st
  | i, out :: outs, st =>
    sweepAux svc labels freq (i+1) outs (sweepStep svc labels freq i out st)

/-- A concrete windowed classifier stand-in for witnesses. -/
def svcW : List (List ℚ) → List Int → ℚ := fun _ _ => 1

/-- A concrete 1x1 sample. -/
def sample1 : Sample := [[1]]

/-- A concrete model matching 1x1 data, learning enabled. -/
def modelW : Model :=
  { input_shape := (1, 1), output_shape := (1, 1), is_training := true,
    forward := fun s => s }

/-- A concrete trainer with one training sample and an attached model. -/
def trainerW : Trainer :=
  { traindata := [sample1], valdata := [], trainlabels := [0], vallabels := [],
    trainsize := 1, valsize := 0, trainindex := 0, valindex := 0,
    datashape := (1, 1), model := some modelW }

/-- A concrete trainer with two training samples, cursors reset. -/
def cursorT : Trainer :=
  { traindata := [sample1, [[2]]], valdata := [], trainlabels := [0, 1], vallabels := [],
    trainsize := 2, valsize := 0, trainindex := 0, valindex := 0,
    datashape := (1, 1), model := none }

/-- A concrete trainer whose cursors are both exhausted. -/
def cursorX : Trainer :=
  { traindata := [sample1], valdata := [], trainlabels := [0], vallabels := [],
    trainsize := 1, valsize := 0, trainindex := 1, valindex := 0,
    datashape := (1, 1), model := none }

/-- A concrete trainer on which `set_model` was never called. -/
def tNoModel : Trainer :=
  { traindata := [sample1], valdata := [], trainlabels := [0], vallabels := [],
    trainsize := 1, valsize := 0, trainindex := 0, valindex := 0,
    datashape := (1, 1), model := none }

/-- Four distinct concrete samples for the determinism counterexample. -/
def dataC2 : List Sample := [[[0]], [[1]], [[2]], [[3]]]

/-- Labels paired with `dataC2`. -/
def labelsC2 : List Int := [0, 1, 2, 3]

/-- One possible process-global numpy random state (every draw 0). -/
def rngC2A : Nat → Nat := fun _ => 0

/-- Another process-global numpy random state (every draw 1). -/
def rngC2B : Nat → Nat := fun _ => 1

/-- Ten concrete samples of shape 3x4 (end-to-end scenario 1). -/
def data10 : List Sample := List.replicate 10 (List.replicate 3 [0, 0, 0, 0])

/-- Labels paired with `data10`. -/
def labels10 : List Int := List.replicate 10 0

/-- A trainer whose training partition has 50 samples (scenario 3). -/
def t50 : Trainer :=
  { traindata := List.replicate 50 sample1, valdata := [],
    trainlabels := List.replicate 50 0, vallabels := [],
    trainsize := 50, valsize := 0, trainindex := 0, valindex := 0,
    datashape := (1, 1), model := some modelW }

/-- A trainer over 3x4-shaped data with no model attached (scenario 4). -/
def tShape : Trainer :=
  { traindata := data10, valdata := [], trainlabels := labels10, vallabels := [],
    trainsize := 10, valsize := 0, trainindex := 0, valindex := 0,
    datashape := (3, 4), model := none }

/-- A model declaring input shape 5x5 (mismatching `tShape`). -/
def mBad : Model :=
  { input_shape := (5, 5), output_shape := (1, 1), is_training := true,
    forward := fun s => s }

/-- A model declaring input shape 3x4 (matching `tShape`). -/
def mGood : Model :=
  { input_shape := (3, 4), output_shape := (1, 1), is_training := true,
    forward := fun s => s }

theorem next_of_lt (t : Trainer) (h : t.trainindex < t.traindata.length) :
    t.next = (.ok t.traindata[t.trainindex], { t with trainindex := t.trainindex + 1 }) := by
  unfold Trainer.next
  rw [List.getElem?_eq_getElem h]

theorem next_of_ge (t : Trainer) (h : t.traindata.length ≤ t.trainindex) :
    t.next = (.error (.ExhaustedCursorError exhaustedTrainMsg), t) := by
  unfold Trainer.next
  rw [List.getElem?_eq_none h]

theorem valnext_of_ge (t : Trainer) (h : t.valdata.length ≤ t.valindex) :
    t.valnext = (.error (.ExhaustedCursorError exhaustedValMsg), t) := by
  unfold Trainer.valnext
  rw [List.getElem?_eq_none h]

theorem iterNext_add : ∀ (k : Nat) (t : Trainer),
    t.trainindex + k ≤ t.traindata.length →
    iterNext t k = .ok { t with trainindex := t.trainindex + k } := by
  intro k
  induction k with
  | zero => intro t h; rfl
  | succ k ih =>
    intro t h
    have hlt : t.trainindex < t.traindata.length := by omega
    unfold iterNext
    rw [next_of_lt t hlt]
    dsimp only
    have hrec := ih { t with trainindex := t.trainindex + 1 } (by dsimp only; omega)
    rw [hrec]
    have harith : t.trainindex + 1 + k = t.trainindex + (k + 1) := by omega
    rw [harith]

/-- C5: for a partition of size S, starting from a freshly reset cursor,
exactly S consecutive `next()` calls succeed, each returning the sample at
the current index and advancing the index by exactly 1, and the (S+1)-th
call fails with the cursor-exhaustion error whose message instructs the
caller to call `reset()`. -/
theorem cursor_exhaustion_property (t : Trainer) (S : Nat)
    (h0 : t.trainindex = 0) (hS : t.traindata.length = S) :
    (∀ k, k < S →
      iterNext t k = .ok { t with trainindex := k } ∧
      Trainer.next { t with trainindex := k } =
        (.ok (t.traindata.getD k []), { t with trainindex := k + 1 })) ∧
    iterNext t S = .ok { t with trainindex := S } ∧
    Trainer.next { t with trainindex := S } =
      (.error (.ExhaustedCursorError exhaustedTrainMsg), { t with trainindex := S }) ∧
    mentionsReset exhaustedTrainMsg = true := by
  refine ⟨?_, ?_, ?_, by decide⟩
  · intro k hk
    constructor
    · have := iterNext_add k t (by omega)
      rw [h0] at this
      simpa using this
    · have hlt : ({ t with trainindex := k } : Trainer).trainindex <
          ({ t with trainindex := k } : Trainer).traindata.length := by
        dsimp only; omega
      rw [next_of_lt _ hlt]
      dsimp only
      rw [List.getD_eq_getElem t.traindata [] (by omega)]
  · have := iterNext_add S t (by omega)
    rw [h0] at this
    simpa using this
  · exact next_of_ge _ (by dsimp only; omega)

/-- Closed instance of C5 at a concrete two-sample cursor. -/
theorem cursor_exhaustion_property_witness :
    iterNext cursorT 2 = .ok { cursorT with trainindex := 2 } ∧
    Trainer.next { cursorT with trainindex := 2 } =
      (.error (.ExhaustedCursorError exhaustedTrainMsg), { cursorT with trainindex := 2 }) ∧
    mentionsReset exhaustedTrainMsg = true := by
  have h := cursor_exhaustion_property cursorT 2 rfl rfl
  exact ⟨h.2.1, h.2.2.1, h.2.2.2⟩

/-- C6: `reset()` sets both cursor indices to 0, is idempotent, and does
not mutate the partition data or labels. -/
theorem reset_idempotent_no_side_effect (t : Trainer) :
    t.reset.trainindex = 0 ∧ t.reset.valindex = 0 ∧
    t.reset.reset = t.reset ∧
    t.reset.traindata = t.traindata ∧ t.reset.valdata = t.valdata ∧
    t.reset.trainlabels = t.trainlabels ∧ t.reset.vallabels = t.vallabels :=
  ⟨rfl, rfl, rfl, rfl, rfl, rfl, rfl⟩

/-- C10: a `next()`/`valnext()` call failing on an exhausted cursor
leaves the trainer state unchanged, so any further call without a
`reset()` fails with the same error, and a single `reset()` restores the
cursor so that a full iteration succeeds again from index 0. -/
theorem next_error_state_unchanged (t : Trainer) (e : TrainerError) :
    (t.next.1 = .error e → t.next.2 = t ∧ (t.next.2).next.1 = .error e) ∧
    (t.valnext.1 = .error e → t.valnext.2 = t ∧ (t.valnext.2).valnext.1 = .error e) ∧
    (t.reset.trainindex = 0 ∧
     iterNext t.reset t.traindata.length =
       .ok { t.reset with trainindex := t.traindata.length }) := by
  refine ⟨?_, ?_, rfl, ?_⟩
  · intro h
    rcases hx : t.traindata[t.trainindex]? with _ | img
    · have hnext : t.next = (.error (.ExhaustedCursorError exhaustedTrainMsg), t) := by
        unfold Trainer.next
        rw [hx]
      rw [hnext] at h ⊢
      exact ⟨rfl, by rw [hnext]; exact h⟩
    · exfalso
      unfold Trainer.next at h
      rw [hx] at h
      exact absurd h (by simp)
  · intro h
    rcases hx : t.valdata[t.valindex]? with _ | img
    · have hnext : t.valnext = (.error (.ExhaustedCursorError exhaustedValMsg), t) := by
        unfold Trainer.valnext
        rw [hx]
      rw [hnext] at h ⊢
      exact ⟨rfl, by rw [hnext]; exact h⟩
    · exfalso
      unfold Trainer.valnext at h
      rw [hx] at h
      exact absurd h (by simp)
  · have := iterNext_add t.traindata.length t.reset (by dsimp only [Trainer.reset]; omega)
    simpa [Trainer.reset] using this

/-- Closed instance of C10 at a concrete exhausted cursor. -/
theorem next_error_state_unchanged_witness :
    (Trainer.next cursorX).2 = cursorX ∧
    ((Trainer.next cursorX).2).next.1 =
      .error (.ExhaustedCursorError exhaustedTrainMsg) ∧
    (Trainer.valnext cursorX).2 = cursorX ∧
    iterNext cursorX.reset 1 = .ok { cursorX.reset with trainindex := 1 } := by
  have hT := next_error_state_unchanged cursorX (.ExhaustedCursorError exhaustedTrainMsg)
  have hV := next_error_state_unchanged cursorX (.ExhaustedCursorError exhaustedValMsg)
  have h1 := hT.1 rfl
  have h2 := hV.2.1 rfl
  exact ⟨h1.1, h1.2, h2.1, hT.2.2.2⟩

/-- C9: attaching a model whose declared input shape differs from the
dataset per-sample shape fails with the shape-mismatch error at attach
time (so the model is never stored, the trainer is left as it was, and no
fit can proceed with it); with exactly matching shapes `set_model`
succeeds and stores the model. -/
theorem set_model_shape_guard (t : Trainer) (m : Model) :
    (t.datashape ≠ m.input_shape →
      t.set_model m = .error (.ShapeMismatchError shapeMismatchMsg)) ∧
    (t.datashape = m.input_shape →
      t.set_model m = .ok { t with model := some m }) := by
  constructor
  · intro h
    simp [Trainer.set_model, h]
  · intro h
    simp [Trainer.set_model, h]

/-- Closed instance of C9: shape (5,5) against data shape (3,4) is
rejected (end-to-end scenario 4), while a matching (3,4) model is stored. -/
theorem set_model_shape_guard_witness :
    tShape.set_model mBad = .error (.ShapeMismatchError shapeMismatchMsg) ∧
    tShape.set_model mGood = .ok { tShape with model := some mGood } :=
  ⟨(set_model_shape_guard tShape mBad).1 (by decide),
   (set_model_shape_guard tShape mGood).2 rfl⟩

/-- C3 (code bug): when `fit` runs on a trainer that never attached a
model, evaluating `self.model` raises an AttributeError (the attribute
was never created), eagerly, before any training step; the intended
ValueError of train.py:137 — whose message does instruct the caller to
call `set_model` — is unreachable, because the attribute lookup in its
own guard fails first, and a bound model object is always truthy. -/
theorem fit_unset_model_attribute_error (svc : List (List ℚ) → List Int → ℚ)
    (t : Trainer) (epochs : Nat) :
    (t.model = none → fitModel svc t epochs = .error (.AttributeError attributeErrMsg)) ∧
    mentionsSetModel attributeErrMsg = false ∧
    mentionsSetModel modelNotSetMsg = true ∧
    (∀ m : Model, modelTruthy m = true) := by
  refine ⟨?_, by decide, by decide, fun m => rfl⟩
  intro h
  simp [fitModel, h]

/-- Closed instance of C3 at a concrete trainer without a model. -/
theorem fit_unset_model_attribute_error_witness :
    fitModel svcW tNoModel 1 = .error (.AttributeError attributeErrMsg) :=
  (fit_unset_model_attribute_error svcW tNoModel 1).1 rfl

theorem drawFrom_length (rng : Nat → Nat) : ∀ (k t : Nat) (pool : List Nat),
    k ≤ pool.length → (drawFrom rng t pool k).length = k := by
  intro k
  induction k with
  | zero => intro t pool h; rfl
  | succ k ih =>
    intro t pool h
    have hpos : ¬ pool.length = 0 := by omega
    have hp : rng t % pool.length < pool.length := Nat.mod_lt _ (by omega)
    have hlen : (pool.eraseIdx (rng t % pool.length)).length = pool.length - 1 := by
      rw [List.length_eraseIdx]
      simp [hp]
    unfold drawFrom
    rw [if_neg hpos, List.length_cons, ih (t+1) _ (by omega)]

theorem drawFrom_subset (rng : Nat → Nat) : ∀ (k t : Nat) (pool : List Nat),
    ∀ x ∈ drawFrom rng t pool k, x ∈ pool := by
  intro k
  induction k with
  | zero => intro t pool x hx; simp [drawFrom] at hx
  | succ k ih =>
    intro t pool x hx
    by_cases hpool : pool.length = 0
    · unfold drawFrom at hx
      rw [if_pos hpool] at hx
      simp at hx
    · unfold drawFrom at hx
      rw [if_neg hpool] at hx
      have hp : rng t % pool.length < pool.length := Nat.mod_lt _ (by omega)
      rcases List.mem_cons.mp hx with h1 | h2
      · rw [h1, List.getD_eq_getElem pool 0 hp]
        exact pool.getElem_mem hp
      · exact List.eraseIdx_subset pool _ (ih (t+1) _ x h2)

theorem getElem_not_mem_eraseIdx : ∀ (l : List Nat) (p : Nat) (hp : p < l.length),
    l.Nodup → l[p] ∉ l.eraseIdx p := by
  intro l
  induction l with
  | nil => intro p hp; simp at hp
  | cons a xs ih =>
    intro p hp hnd
    rcases List.nodup_cons.mp hnd with ⟨ha, hxs⟩
    cases p with
    | zero => simpa using ha
    | succ p =>
      have hp2 : p < xs.length := by
        simpa using hp
      simp only [List.eraseIdx_cons_succ, List.getElem_cons_succ]
      intro hmem
      rcases List.mem_cons.mp hmem with h1 | h2
      · exact ha (h1 ▸ xs.getElem_mem hp2)
      · exact ih p hp2 hxs h2

theorem drawFrom_nodup (rng : Nat → Nat) : ∀ (k t : Nat) (pool : List Nat),
    pool.Nodup → (drawFrom rng t pool k).Nodup := by
  intro k
  induction k with
  | zero => intro t pool h; simp [drawFrom]
  | succ k ih =>
    intro t pool hnd
    by_cases hpool : pool.length = 0
    · unfold drawFrom
      rw [if_pos hpool]
      simp
    · unfold drawFrom
      rw [if_neg hpool]
      have hp : rng t % pool.length < pool.length := Nat.mod_lt _ (by omega)
      apply List.nodup_cons.mpr
      constructor
      · intro hmem
        have h2 := drawFrom_subset rng k (t+1) _ _ hmem
        rw [List.getD_eq_getElem pool 0 hp] at h2
        exact getElem_not_mem_eraseIdx pool _ hp hnd h2
      · exact ih (t+1) _ ((List.eraseIdx_sublist pool _).nodup hnd)

theorem filter_not_mem_length (N : Nat) (v : List Nat) (hnd : v.Nodup)
    (hsub : ∀ x ∈ v, x < N) :
    ((List.range N).filter (fun i => decide (i ∉ v))).length = N - v.length := by
  have hperm : List.Perm ((List.range N).filter (fun i => decide (i ∈ v))) v := by
    apply (List.perm_ext_iff_of_nodup ((List.nodup_range N).filter _) hnd).mpr
    intro a
    rw [List.mem_filter]
    simp only [List.mem_range, decide_eq_true_eq]
    exact ⟨fun h => h.2, fun h => ⟨hsub a h, h⟩⟩
  have h1 : ((List.range N).filter (fun i => decide (i ∈ v))).length = v.length :=
    hperm.length_eq
  have h2 := @List.length_eq_length_filter_add Nat (List.range N) (fun i => decide (i ∈ v))
  simp only [List.length_range] at h2
  have h3 : (List.range N).filter (fun a => ! decide (a ∈ v)) =
      (List.range N).filter (fun i => decide (i ∉ v)) := by
    apply List.filter_congr
    intro a _
    simp [decide_not]
  rw [h1, h3] at h2
  omega

theorem computeValSize_le (n : Nat) (r : ℚ) (_hr0 : 0 ≤ r) (hr1 : r < 1) :
    computeValSize n r ≤ n := by
  unfold computeValSize
  have h1 : (n : ℚ) * r ≤ (n : ℚ) := by nlinarith [Nat.cast_nonneg (α := ℚ) n]
  have h2 : ⌊(n : ℚ) * r⌋ ≤ ⌊((n : ℚ))⌋ := Int.floor_le_floor h1
  have h3 : ⌊((n : ℚ))⌋ = (n : ℤ) := Int.floor_natCast n
  omega

/-- C4: for every dataset of size N and validation ratio in [0,1), the
partitioner succeeds, the validation index set has exactly
floor(N * ratio) elements, the training index set exactly the remaining
N - floor(N * ratio), the partitions have those same sizes, the two index
sets are disjoint, and together they cover all N dataset indices. -/
theorem read_data_partition_sizes (data : List Sample) (labels : List Int)
    (r : ℚ) (rng : Nat → Nat)
    (hr0 : 0 ≤ r) (hr1 : r < 1) (hlen : data.length = labels.length) :
    ∃ res, read_data data labels r rng = .ok res ∧
      res.val_indices.length = computeValSize data.length r ∧
      res.train_indices.length = data.length - computeValSize data.length r ∧
      res.valdata.length = computeValSize data.length r ∧
      res.traindata.length = data.length - computeValSize data.length r ∧
      (∀ i, i ∈ res.val_indices → i ∉ res.train_indices) ∧
      (∀ i, i < data.length → i ∈ res.val_indices ∨ i ∈ res.train_indices) ∧
      res.val_indices.Nodup := by
  have hvs : computeValSize data.length r ≤ data.length :=
    computeValSize_le data.length r hr0 hr1
  have hnodup : (drawFrom rng 0 (List.range data.length)
      (computeValSize data.length r)).Nodup :=
    drawFrom_nodup rng _ 0 _ (List.nodup_range _)
  have hvlen : (drawFrom rng 0 (List.range data.length)
      (computeValSize data.length r)).length = computeValSize data.length r :=
    drawFrom_length rng _ 0 _ (by rw [List.length_range]; exact hvs)
  have hmem : ∀ x ∈ drawFrom rng 0 (List.range data.length)
      (computeValSize data.length r), x < data.length := by
    intro x hx
    exact List.mem_range.mp (drawFrom_subset rng _ 0 _ x hx)
  have hflen := filter_not_mem_length data.length
    (drawFrom rng 0 (List.range data.length) (computeValSize data.length r))
    hnodup hmem
  unfold read_data
  rw [if_pos hlen]
  refine ⟨_, rfl, ?_, ?_, ?_, ?_, ?_, ?_, ?_⟩
  · exact hvlen
  · dsimp only
    rw [hflen, hvlen]
  · dsimp only
    rw [List.length_map, hvlen]
  · dsimp only
    rw [List.length_map, hflen, hvlen]
  · dsimp only
    intro i hi hmem2
    have h2 := (List.mem_filter.mp hmem2).2
    simp only [decide_eq_true_eq] at h2
    exact h2 hi
  · dsimp only
    intro i hiN
    by_cases h : i ∈ drawFrom rng 0 (List.range data.length) (computeValSize data.length r)
    · exact Or.inl h
    · exact Or.inr (List.mem_filter.mpr ⟨List.mem_range.mpr hiN, by simp [h]⟩)
  · exact hnodup

/-- Closed instance of C4: ten samples at ratio 1/5 give validation size
floor(10/5) = 2 and training size 8 (end-to-end scenario 1). -/
theorem read_data_partition_sizes_witness :
    (∃ res, read_data data10 labels10 (1/5) rngC2A = .ok res ∧
      res.val_indices.length = computeValSize data10.length (1/5) ∧
      res.train_indices.length = data10.length - computeValSize data10.length (1/5) ∧
      res.valdata.length = computeValSize data10.length (1/5) ∧
      res.traindata.length = data10.length - computeValSize data10.length (1/5) ∧
      (∀ i, i ∈ res.val_indices → i ∉ res.train_indices) ∧
      (∀ i, i < data10.length → i ∈ res.val_indices ∨ i ∈ res.train_indices) ∧
      res.val_indices.Nodup) ∧
    computeValSize 10 (1/5) = 2 ∧ 10 - computeValSize 10 (1/5) = 8 := by
  refine ⟨read_data_partition_sizes data10 labels10 (1/5) rngC2A
    (by norm_num) (by norm_num) (by decide), ?_, ?_⟩
  · unfold computeValSize
    norm_num
    decide
  · unfold computeValSize
    norm_num
    decide

theorem read_data_val_indices (data : List Sample) (labels : List Int)
    (r : ℚ) (rng : Nat → Nat) (h : data.length = labels.length) :
    (read_data data labels r rng).map (fun res => res.val_indices) =
      .ok (drawFrom rng 0 (List.range data.length) (computeValSize data.length r)) := by
  unfold read_data
  rw [if_pos h]
  rfl

/-- C2 (amended): the fixed-seed shuffle is deterministic — the shuffled
dataset and labels do not depend on the process-global numpy random
state — and the whole partition is a deterministic function of the input
together with that global state, so two runs produce identical partitions
whenever their global numpy random states agree.  (As the counterexample
shows, the validation-index draw consumes the *unseeded* global state, so
two runs of the partitioner need not agree in general.) -/
theorem read_data_determinism_amended (data : List Sample) (labels : List Int)
    (r : ℚ) (rngA rngB : Nat → Nat) :
    ((read_data data labels r rngA).map (fun res => (res.shuffledData, res.shuffledLabels)) =
     (read_data data labels r rngB).map (fun res => (res.shuffledData, res.shuffledLabels))) ∧
    (rngA = rngB → read_data data labels r rngA = read_data data labels r rngB) := by
  constructor
  · by_cases h : data.length = labels.length
    · simp only [read_data, if_pos h, Except.map]
    · simp only [read_data, if_neg h, Except.map]
  · intro h
    rw [h]

/-- Closed instance of C2 (amended) at the concrete four-sample dataset. -/
theorem read_data_determinism_witness :
    ((read_data dataC2 labelsC2 (1/2) rngC2A).map (fun res => (res.shuffledData, res.shuffledLabels)) =
     (read_data dataC2 labelsC2 (1/2) rngC2B).map (fun res => (res.shuffledData, res.shuffledLabels))) ∧
    read_data dataC2 labelsC2 (1/2) rngC2A = read_data dataC2 labelsC2 (1/2) rngC2A :=
  ⟨(read_data_determinism_amended dataC2 labelsC2 (1/2) rngC2A rngC2B).1,
   (read_data_determinism_amended dataC2 labelsC2 (1/2) rngC2A rngC2A).2 rfl⟩

/-- C2 counterexample: two runs of the partitioner on the same input and
the same (hard-coded) shuffle seed, but with different process-global
numpy random states — exactly what two successive calls in one process
see, since nothing seeds the global state — produce different validation
index sets. -/
theorem read_data_global_rng_counterexample :
    (read_data dataC2 labelsC2 (1/2) rngC2A).map (fun res => res.val_indices) ≠
    (read_data dataC2 labelsC2 (1/2) rngC2B).map (fun res => res.val_indices) := by
  have hv : computeValSize dataC2.length (1/2) = 2 := by
    show computeValSize 4 (1/2) = 2
    unfold computeValSize
    norm_num
    decide
  rw [read_data_val_indices dataC2 labelsC2 (1/2) rngC2A (by decide),
      read_data_val_indices dataC2 labelsC2 (1/2) rngC2B (by decide), hv]
  simp only [ne_eq, Except.ok.injEq]
  decide

theorem sweepStep_no_fire (svc : List (List ℚ) → List Int → ℚ) (labels : List Int)
    (freq i : Nat) (out : Sample) (st : SweepState) (h : (i+1) % freq ≠ 0) :
    sweepStep svc labels freq i out st =
      { potentials := st.potentials ++ [out], score := st.score,
        scores := st.scores, progLog := st.progLog ++ [st.score] } := by
  simp only [sweepStep, if_neg h]

theorem sweepStep_fire (svc : List (List ℚ) → List Int → ℚ) (labels : List Int)
    (freq i : Nat) (out : Sample) (st : SweepState) (h : (i+1) % freq = 0) :
    sweepStep svc labels freq i out st =
      { potentials := st.potentials ++ [out],
        score := some (svc (((st.potentials ++ [out]).drop (i+1-freq)).take freq |>.map flattenSample)
          ((labels.drop (i+1-freq)).take freq)),
        scores := st.scores ++ [svc (((st.potentials ++ [out]).drop (i+1-freq)).take freq |>.map flattenSample)
          ((labels.drop (i+1-freq)).take freq)],
        progLog := st.progLog ++ [some (svc (((st.potentials ++ [out]).drop (i+1-freq)).take freq |>.map flattenSample)
          ((labels.drop (i+1-freq)).take freq))] } := by
  simp only [sweepStep, if_pos h]

theorem sweepAux_potentials (svc : List (List ℚ) → List Int → ℚ) (labels : List Int)
    (freq : Nat) : ∀ (outs : List Sample) (i : Nat) (st : SweepState),
    (sweepAux svc labels freq i outs st).potentials = st.potentials ++ outs := by
  intro outs
  induction outs with
  | nil => intro i st; simp [sweepAux]
  | cons out outs ih =>
    intro i st
    show (sweepAux svc labels freq (i+1) outs (sweepStep svc labels freq i out st)).potentials = _
    rw [ih]
    by_cases h : (i+1) % freq = 0
    · rw [sweepStep_fire svc labels freq i out st h]
      simp
    · rw [sweepStep_no_fire svc labels freq i out st h]
      simp

theorem sweepAux_append (svc : List (List ℚ) → List Int → ℚ) (labels : List Int)
    (freq : Nat) : ∀ (xs ys : List Sample) (i : Nat) (st : SweepState),
    sweepAux svc labels freq i (xs ++ ys) st =
      sweepAux svc labels freq (i + xs.length) ys (sweepAux svc labels freq i xs st) := by
  intro xs
  induction xs with
  | nil => intro ys i st; simp [sweepAux]
  | cons x xs ih =>
    intro ys i st
    have h1 : sweepAux svc labels freq i ((x :: xs) ++ ys) st
        = sweepAux svc labels freq (i+1) (xs ++ ys) (sweepStep svc labels freq i x st) := rfl
    have h2 : sweepAux svc labels freq i (x :: xs) st
        = sweepAux svc labels freq (i+1) xs (sweepStep svc labels freq i x st) := rfl
    rw [h1, ih, h2, List.length_cons]
    have harith : i + 1 + xs.length = i + (xs.length + 1) := by omega
    rw [harith]

theorem sweepAux_no_fire (svc : List (List ℚ) → List Int → ℚ) (labels : List Int)
    (freq : Nat) : ∀ (outs : List Sample) (i : Nat) (st : SweepState),
    (∀ j, j < outs.length → (i + j + 1) % freq ≠ 0) →
    sweepAux svc labels freq i outs st =
      { potentials := st.potentials ++ outs, score := st.score,
        scores := st.scores, progLog := st.progLog ++ List.replicate outs.length st.score } := by
  intro outs
  induction outs with
  | nil => intro i st h; simp [sweepAux]
  | cons out outs ih =>
    intro i st h
    have h0 : (i + 1) % freq ≠ 0 := by
      have := h 0 (by simp)
      simpa using this
    have hrest : ∀ j, j < outs.length → (i + 1 + j + 1) % freq ≠ 0 := by
      intro j hj
      have := h (j+1) (by simpa using Nat.succ_lt_succ hj)
      have harith : i + 1 + j + 1 = i + (j + 1) + 1 := by omega
      rw [harith]
      exact this
    show sweepAux svc labels freq (i+1) outs (sweepStep svc labels freq i out st) = _
    rw [sweepStep_no_fire svc labels freq i out st h0, ih (i+1) _ hrest]
    simp [List.replicate_succ]

theorem valnext_of_lt (t : Trainer) (h : t.valindex < t.valdata.length) :
    t.valnext = (.ok t.valdata[t.valindex], { t with valindex := t.valindex + 1 }) := by
  unfold Trainer.valnext
  rw [List.getElem?_eq_getElem h]

theorem trainLoop_eq_sweepAux (svc : List (List ℚ) → List Int → ℚ)
    (fwd : Sample → Sample) (labels : List Int) (freq : Nat) :
    ∀ (rem i : Nat) (t : Trainer) (st : SweepState),
    t.trainindex + rem ≤ t.traindata.length →
    trainLoop svc fwd labels freq i rem t st =
      .ok ({ t with trainindex := t.trainindex + rem },
        sweepAux svc labels freq i (((t.traindata.drop t.trainindex).take rem).map fwd) st) := by
  intro rem
  induction rem with
  | zero =>
    intro i t st h
    simp [trainLoop, sweepAux]
  | succ rem ih =>
    intro i t st h
    have hlt : t.trainindex < t.traindata.length := by omega
    unfold trainLoop
    rw [next_of_lt t hlt]
    dsimp only
    rw [ih (i+1) { t with trainindex := t.trainindex + 1 } _ (by dsimp only; omega)]
    rw [List.drop_eq_getElem_cons hlt, List.take_succ_cons, List.map_cons]
    simp only [sweepAux]
    have harith : t.trainindex + 1 + rem = t.trainindex + (rem + 1) := by omega
    rw [harith]

theorem valLoop_eq_sweepAux (svc : List (List ℚ) → List Int → ℚ)
    (fwd : Sample → Sample) (labels : List Int) (freq : Nat) :
    ∀ (rem i : Nat) (t : Trainer) (st : SweepState),
    t.valindex + rem ≤ t.valdata.length →
    valLoop svc fwd labels freq i rem t st =
      .ok ({ t with valindex := t.valindex + rem },
        sweepAux svc labels freq i (((t.valdata.drop t.valindex).take rem).map fwd) st) := by
  intro rem
  induction rem with
  | zero =>
    intro i t st h
    simp [valLoop, sweepAux]
  | succ rem ih =>
    intro i t st h
    have hlt : t.valindex < t.valdata.length := by omega
    unfold valLoop
    rw [valnext_of_lt t hlt]
    dsimp only
    rw [ih (i+1) { t with valindex := t.valindex + 1 } _ (by dsimp only; omega)]
    rw [List.drop_eq_getElem_cons hlt, List.take_succ_cons, List.map_cons]
    simp only [sweepAux]
    have harith : t.valindex + 1 + rem = t.valindex + (rem + 1) := by omega
    rw [harith]

theorem epochBody_eq (svc : List (List ℚ) → List Int → ℚ) (m : Model) (t : Trainer)
    (hT : t.trainsize = t.traindata.length) (hV : t.valsize = t.valdata.length) :
    epochBody svc m t = .ok (((m.unfreeze).freeze).unfreeze,
      { t with trainindex := t.traindata.length, valindex := t.valdata.length },
      { trainPotentials := (sweepAux svc t.trainlabels 100 0 (t.traindata.map m.forward) initSweep).potentials,
        trainScores := (sweepAux svc t.trainlabels 100 0 (t.traindata.map m.forward) initSweep).scores,
        trainProg := (sweepAux svc t.trainlabels 100 0 (t.traindata.map m.forward) initSweep).progLog,
        trainMean := npMean (sweepAux svc t.trainlabels 100 0 (t.traindata.map m.forward) initSweep).scores,
        valPotentials := (sweepAux svc t.vallabels 100 0 (t.valdata.map m.forward) initSweep).potentials,
        valScores := (sweepAux svc t.vallabels 100 0 (t.valdata.map m.forward) initSweep).scores,
        valProg := (sweepAux svc t.vallabels 100 0 (t.valdata.map m.forward) initSweep).progLog,
        valMean := npMean (sweepAux svc t.vallabels 100 0 (t.valdata.map m.forward) initSweep).scores }) := by
  unfold epochBody
  dsimp only [Trainer.reset, Model.unfreeze, Model.freeze]
  have hbr := trainLoop_eq_sweepAux svc m.forward t.trainlabels 100 t.trainsize 0
    ({ t with trainindex := 0, valindex := 0 }) initSweep (by dsimp only; omega)
  rw [hbr]
  dsimp only
  have hbv := valLoop_eq_sweepAux svc m.forward t.vallabels 100 t.valsize 0
    ({ t with trainindex := 0 + t.trainsize, valindex := 0 }) initSweep (by dsimp only; omega)
  rw [hbv]
  dsimp only
  simp only [Nat.zero_add, List.drop_zero, hT, hV, List.take_length]

theorem sweepAux_one_block (svc : List (List ℚ) → List Int → ℚ) (labels : List Int)
    (freq : Nat) (hf : 0 < freq) (b : Nat) (block : List Sample)
    (hb : block.length = freq) (st : SweepState)
    (hpot : st.potentials.length = b * freq) :
    sweepAux svc labels freq (b * freq) block st =
      { potentials := st.potentials ++ block,
        score := some (svc (block.map flattenSample) ((labels.drop (b * freq)).take freq)),
        scores := st.scores ++ [svc (block.map flattenSample) ((labels.drop (b * freq)).take freq)],
        progLog := st.progLog ++ List.replicate (freq - 1) st.score ++
          [some (svc (block.map flattenSample) ((labels.drop (b * freq)).take freq))] } := by
  have hlt : freq - 1 < block.length := by omega
  have hdrop : block.drop (freq - 1) = [block.get ⟨freq - 1, hlt⟩] := by
    rw [List.drop_eq_getElem_cons hlt]
    have h2 : freq - 1 + 1 = block.length := by omega
    rw [h2, List.drop_length]
    rfl
  have hsplit : block.take (freq - 1) ++ [block.get ⟨freq - 1, hlt⟩] = block := by
    rw [← hdrop, List.take_append_drop]
  have htklen : (block.take (freq - 1)).length = freq - 1 := by
    rw [List.length_take, hb]
    omega
  have hnf : ∀ j, j < (block.take (freq - 1)).length → (b * freq + j + 1) % freq ≠ 0 := by
    intro j hj
    rw [htklen] at hj
    have h3 : b * freq + j + 1 = (j + 1) + b * freq := by omega
    rw [h3, Nat.add_mul_mod_self_right, Nat.mod_eq_of_lt (by omega : j + 1 < freq)]
    omega
  have hmid := sweepAux_no_fire svc labels freq (block.take (freq - 1)) (b * freq) st hnf
  have hfire : (b * freq + (freq - 1) + 1) % freq = 0 := by
    have h5 : b * freq + (freq - 1) + 1 = freq + b * freq := by omega
    rw [h5, Nat.add_mul_mod_self_right, Nat.mod_self]
  have hidx : b * freq + (freq - 1) + 1 - freq = b * freq := by omega
  conv_lhs => rw [← hsplit]
  rw [sweepAux_append, hmid, htklen]
  show sweepStep svc labels freq (b * freq + (freq - 1)) (block.get ⟨freq - 1, hlt⟩) _ = _
  rw [sweepStep_fire svc labels freq _ _ _ hfire]
  dsimp only
  rw [hidx, List.append_assoc, hsplit, ← hpot, List.drop_left, ← hb, List.take_length, hb]

theorem sweepAux_blocks (svc : List (List ℚ) → List Int → ℚ) (labels : List Int)
    (freq : Nat) (hf : 0 < freq) :
    ∀ (n : Nat) (outs : List Sample), outs.length = n → ∀ (b : Nat) (st : SweepState),
      st.potentials.length = b * freq →
      (sweepAux svc labels freq (b * freq) outs st).scores =
        st.scores ++ (List.range (n / freq)).map (fun k =>
          svc (((outs.drop (k * freq)).take freq).map flattenSample)
              ((labels.drop ((b + k) * freq)).take freq)) := by
  intro n
  induction n using Nat.strong_induction_on with
  | _ n ih =>
    intro outs hn b st hpot
    by_cases hsmall : n < freq
    · have hdiv : n / freq = 0 := Nat.div_eq_of_lt hsmall
      rw [hdiv]
      simp only [List.range_zero, List.map_nil, List.append_nil]
      rw [sweepAux_no_fire svc labels freq outs (b * freq) st (by
        intro j hj
        rw [hn] at hj
        have h3 : b * freq + j + 1 = (j + 1) + b * freq := by omega
        rw [h3, Nat.add_mul_mod_self_right, Nat.mod_eq_of_lt (by omega : j + 1 < freq)]
        omega)]
    · push_neg at hsmall
      have hblock : (outs.take freq).length = freq := by
        rw [List.length_take, hn]
        omega
      have hrest : (outs.drop freq).length = n - freq := by
        rw [List.length_drop, hn]
      have hsplit : outs.take freq ++ outs.drop freq = outs := List.take_append_drop _ _
      conv_lhs => rw [← hsplit]
      rw [sweepAux_append, hblock,
        sweepAux_one_block svc labels freq hf b (outs.take freq) hblock st hpot]
      have hb1 : b * freq + freq = (b + 1) * freq := (Nat.succ_mul b freq).symm
      rw [hb1]
      rw [ih (n - freq) (by omega) (outs.drop freq) hrest (b + 1) _ (by
        dsimp only
        rw [List.length_append, hpot, hblock, Nat.succ_mul])]
      dsimp only
      have hdiv : n / freq = (n - freq) / freq + 1 := Nat.div_eq_sub_div hf hsmall
      rw [hdiv, List.range_succ_eq_map, List.map_cons, List.map_map]
      simp only [Nat.zero_mul, List.drop_zero, Nat.add_zero, List.append_assoc,
        List.singleton_append, List.cons_append]
      congr 2
      apply List.map_congr_left
      intro k _
      simp only [Function.comp]
      have hd : (outs.drop freq).drop (k * freq) = outs.drop (Nat.succ k * freq) := by
        rw [List.drop_drop, Nat.succ_mul, Nat.add_comm]
      rw [hd]
      have hidx2 : (b + 1 + k) * freq = (b + Nat.succ k) * freq := by
        have : b + 1 + k = b + Nat.succ k := by omega
        rw [this]
      rw [hidx2]

/-- C1 (amended): between epochs the invariant holds — every run of the
Evaluating phase ends by restoring the model to learning-enabled mode
(train.py:222), so whenever an epoch body completes the model is
unfrozen — but after `fit` returns successfully the model is *frozen*,
because the terminal `visualize_snn` call freezes it (train.py:253) and
never unfreezes it. -/
theorem orchestrator_freeze_restore_amended (svc : List (List ℚ) → List Int → ℚ)
    (m : Model) (t : Trainer) (epochs : Nat) :
    ((epochBody svc m t).map (fun res => res.1.is_training) =
     (epochBody svc m t).map (fun _ => true)) ∧
    ((fitModel svc t epochs).map (fun res => res.1.model.map Model.is_training) =
     (fitModel svc t epochs).map (fun _ => some false)) := by
  constructor
  · unfold epochBody
    dsimp only [Trainer.reset, Model.unfreeze, Model.freeze]
    cases h1 : trainLoop svc m.forward t.trainlabels 100 0 t.trainsize
        ({ t with trainindex := 0, valindex := 0 }) initSweep with
    | error e => rfl
    | ok p =>
      obtain ⟨t1, stT⟩ := p
      dsimp only
      cases h2 : valLoop svc m.forward t.vallabels 100 0 t.valsize t1 initSweep with
      | error e => rfl
      | ok q =>
        obtain ⟨t2, stV⟩ := q
        rfl
  · unfold fitModel
    cases hm : t.model with
    | none => rfl
    | some mm =>
      dsimp only [modelTruthy, if_true]
      cases h2 : runEpochs svc (if mm.is_training then mm else mm.unfreeze) t epochs with
      | error e => rfl
      | ok trip =>
        obtain ⟨m1, t1, logs⟩ := trip
        rfl

/-- Counterexample to C1 as stated: a successful one-epoch `fit` on a
concrete trainer returns with the model learning-DISABLED (frozen by the
final `visualize_snn`), not learning-enabled. -/
theorem fit_leaves_model_frozen_counterexample :
    (fitModel svcW trainerW 1).map (fun res => res.1.model.map Model.is_training) =
      .ok (some false) := by
  rfl

/-- C7: in each epoch sweep the windowed evaluator fires exactly on the
steps i with (i+1) a multiple of test_freq = 100 (the guard of
`sweepStep`), i.e. once per completed block of 100 consecutive outputs:
the recorded scores are exactly, in order, one evaluation per
non-overlapping contiguous window of 100 consecutive outputs paired with
the 100 labels at the same positions, each computed by a fresh pure
classifier call `svc` (fit on the flattened window, scored in-sample on
that same window) that sees nothing but its own window. -/
theorem epoch_windowed_evaluation (svc : List (List ℚ) → List Int → ℚ)
    (m : Model) (t : Trainer)
    (hT : t.trainsize = t.traindata.length) (hV : t.valsize = t.valdata.length) :
    ∃ res, epochBody svc m t = .ok res ∧
      res.2.2.trainScores = (List.range (t.traindata.length / 100)).map (fun k =>
        svc ((((t.traindata.map m.forward).drop (k * 100)).take 100).map flattenSample)
            ((t.trainlabels.drop (k * 100)).take 100)) ∧
      res.2.2.valScores = (List.range (t.valdata.length / 100)).map (fun k =>
        svc ((((t.valdata.map m.forward).drop (k * 100)).take 100).map flattenSample)
            ((t.vallabels.drop (k * 100)).take 100)) ∧
      res.2.2.trainPotentials = t.traindata.map m.forward ∧
      res.2.2.valPotentials = t.valdata.map m.forward ∧
      (∀ k, k < t.traindata.length / 100 →
        (((t.traindata.map m.forward).drop (k * 100)).take 100).length = 100) := by
  refine ⟨_, epochBody_eq svc m t hT hV, ?_, ?_, ?_, ?_, ?_⟩
  · have hb := sweepAux_blocks svc t.trainlabels 100 (by omega)
      (t.traindata.map m.forward).length (t.traindata.map m.forward) rfl 0 initSweep
      (by simp [initSweep])
    simp only [Nat.zero_mul, Nat.zero_add, List.length_map] at hb
    simpa [initSweep] using hb
  · have hb := sweepAux_blocks svc t.vallabels 100 (by omega)
      (t.valdata.map m.forward).length (t.valdata.map m.forward) rfl 0 initSweep
      (by simp [initSweep])
    simp only [Nat.zero_mul, Nat.zero_add, List.length_map] at hb
    simpa [initSweep] using hb
  · have hp := sweepAux_potentials svc t.trainlabels 100 (t.traindata.map m.forward) 0 initSweep
    simpa [initSweep] using hp
  · have hp := sweepAux_potentials svc t.vallabels 100 (t.valdata.map m.forward) 0 initSweep
    simpa [initSweep] using hp
  · intro k hk
    rw [List.length_take, List.length_drop, List.length_map]
    omega

/-- Closed instance of C7 at a concrete two-sample trainer. -/
theorem epoch_windowed_evaluation_witness :
    ∃ res, epochBody svcW modelW cursorT = .ok res ∧
      res.2.2.trainScores = (List.range (cursorT.traindata.length / 100)).map (fun k =>
        svcW ((((cursorT.traindata.map modelW.forward).drop (k * 100)).take 100).map flattenSample)
            ((cursorT.trainlabels.drop (k * 100)).take 100)) ∧
      res.2.2.valScores = (List.range (cursorT.valdata.length / 100)).map (fun k =>
        svcW ((((cursorT.valdata.map modelW.forward).drop (k * 100)).take 100).map flattenSample)
            ((cursorT.vallabels.drop (k * 100)).take 100)) ∧
      res.2.2.trainPotentials = cursorT.traindata.map modelW.forward ∧
      res.2.2.valPotentials = cursorT.valdata.map modelW.forward ∧
      (∀ k, k < cursorT.traindata.length / 100 →
        (((cursorT.traindata.map modelW.forward).drop (k * 100)).take 100).length = 100) :=
  epoch_windowed_evaluation svcW modelW cursorT rfl rfl

/-- C8: when the training partition is strictly smaller than test_freq =
100, `fit(epochs=1)` completes without error performing zero windowed
evaluations in the epoch: the recorded score list is empty, the reported
mean accuracy is the NaN sentinel (`none`), and every per-step progress
update carries the initial sentinel score. -/
theorem fit_small_partition_sentinel (svc : List (List ℚ) → List Int → ℚ)
    (m : Model) (t : Trainer) (hm : t.model = some m)
    (hT : t.trainsize = t.traindata.length) (hV : t.valsize = t.valdata.length)
    (hsmall : t.trainsize < 100) :
    ∃ t2 log, fitModel svc t 1 = .ok (t2, [log]) ∧
      log.trainScores = [] ∧ log.trainMean = none ∧
      log.trainProg = List.replicate t.trainsize none := by
  have hnf := sweepAux_no_fire svc t.trainlabels 100
    (t.traindata.map (if m.is_training then m else m.unfreeze).forward) 0 initSweep (by
      intro j hj
      rw [List.length_map, ← hT] at hj
      have h3 : 0 + j + 1 = j + 1 := by omega
      rw [h3, Nat.mod_eq_of_lt (by omega : j + 1 < 100)]
      omega)
  unfold fitModel
  rw [hm]
  dsimp only [modelTruthy, if_true]
  unfold runEpochs
  rw [epochBody_eq svc (if m.is_training then m else m.unfreeze) t hT hV]
  dsimp only
  unfold runEpochs
  dsimp only
  refine ⟨_, _, rfl, ?_, ?_, ?_⟩
  · rw [hnf]
    rfl
  · rw [hnf]
    rfl
  · rw [hnf]
    dsimp only [initSweep]
    rw [List.length_map, ← hT]
    rfl

/-- Closed instance of C8 (end-to-end scenario 3): a 50-sample training
partition with test_freq 100 and one epoch. -/
theorem fit_small_partition_sentinel_witness :
    ∃ t2 log, fitModel svcW t50 1 = .ok (t2, [log]) ∧
      log.trainScores = [] ∧ log.trainMean = none ∧
      log.trainProg = List.replicate t50.trainsize none :=
  fit_small_partition_sentinel svcW modelW t50 rfl (by simp [t50]) (by simp [t50])
    (by simp [t50])
